import Mathlib

/-!
Verification development for the GlinkIR repository (FastAPI backend in
src/backend: main.py, processor.py, cloud_providers.py).

The Python source is shallowly embedded below.  Pure string processing
(the text-matching logic of processor.py) is translated character by
character over `List Char` (an ASCII model of the Python Unicode string
operations, which agree on the inputs appearing here).  Stateful code
(the on-disk feature cache of processor.py, the job dictionary of
main.py) is modelled by explicit state passing.  External capabilities
(face_recognition, easyocr, the network) are oracles supplied as data:
a `World` record says what inference finds for each image, and
per-image download outcomes are carried in the image descriptors.
-/

namespace GlinkIR

/-! ## Character-level primitives (Python str methods and the regexes of
processor.py, ASCII fragment) -/

/-- ASCII whitespace, the character class matched by the regex \s and
stripped by the Python str.strip method. -/
def isWsChar (c : Char) : Bool :=
  c = ' ' || c = '\t' || c = '\n' || c = '\r' || c = '\x0b' || c = '\x0c'

/-- ASCII word character, the character class of the regex \w. -/
def isWordChar (c : Char) : Bool :=
  c.isAlphanum || c = '_'

/-- Python str.lower, ASCII fragment. -/
def lowerL (s : List Char) : List Char :=
  s.map Char.toLower

/-- Python str.strip with no argument: remove leading and trailing
whitespace. -/
def pyStrip (s : List Char) : List Char :=
  ((s.dropWhile isWsChar).reverse.dropWhile isWsChar).reverse

/-- The substitution re.sub applied in processor.py with the pattern
that deletes every character that is neither a word character nor
whitespace (comment in the source: remove punctuation). -/
def stripPunct (s : List Char) : List Char :=
  s.filter (fun c => isWordChar c || isWsChar c)

/-- Python str.isdigit, ASCII fragment: nonempty and all digits. -/
def pyIsDigit (s : List Char) : Bool :=
  !s.isEmpty && s.all Char.isDigit

/-- Whether hay starts with needle. -/
def startsWithL : List Char → List Char → Bool
  | [], _ => true
  | _ :: _, [] => false
  | a :: as, b :: bs => a = b && startsWithL as bs

/-- The Python substring test (the in operator on str). -/
def containsSubstr (needle : List Char) : List Char → Bool
  | [] => needle.isEmpty
  | c :: rest => startsWithL needle (c :: rest) || containsSubstr needle rest

/-- Whether needle occurs at the head of hay with regex word boundaries
on both sides, given the character just before this position.  Used only
with a nonempty all-digit needle, for which a boundary before it means
the previous character (if any) is not a word character, and a boundary
after it means the following character (if any) is not a word
character. -/
def wordBoundedAt (needle hay : List Char) (prev : Option Char) : Bool :=
  startsWithL needle hay
    && (match prev with | none => true | some c => !isWordChar c)
    && (match (hay.drop needle.length).head? with
        | none => true
        | some c => !isWordChar c)

/-- The regex search in processor.py for a word-bounded occurrence of
the (nonempty, all-digit) needle anywhere in hay. -/
def searchWordBounded (needle : List Char) : Option Char → List Char → Bool
  | prev, [] => wordBoundedAt needle [] prev
  | prev, c :: rest =>
    wordBoundedAt needle (c :: rest) prev || searchWordBounded needle (some c) rest

/-- The matching loop shared by find_text_in_uploaded_bytes (lines
363 to 386 of processor.py) and the fresh path of find_text_in_image
(lines 223 to 246): lower-case and strip the search string, strip
punctuation, and for each detected text accept a raw lower-case
substring occurrence, a punctuation-stripped substring occurrence, or
(for an all-digit search string) a word-bounded occurrence in the
punctuation-stripped form. -/
def text_match_loop (search_text : List Char) (detected_texts : List (List Char)) : Bool :=
  let search_text_lower := pyStrip (lowerL search_text)
  let search_text_clean := stripPunct search_text_lower
  detected_texts.any fun detected =>
    let detected_lower := lowerL detected
    let detected_clean := stripPunct detected_lower
    containsSubstr search_text_lower detected_lower
    || containsSubstr search_text_clean detected_clean
    || (pyIsDigit search_text_clean && searchWordBounded search_text_clean none detected_clean)

/-! ## External capabilities and the feature cache (processor.py)

Face embeddings are an abstract type `Enc`; the tolerance-0.75 distance
comparison performed by face_recognition.compare_faces is the external
oracle `World.close`.  What loading plus inference would find at an
image URL is given by `World.faceInference` and `World.ocrInference`:
`loadFail` means _load_image_from_url returned None (download failure),
`inferFail` means the inference library raised, and `ok` carries the
extracted value.  The on-disk JSON cache of ImageProcessor is the
explicit `CacheState`; `CacheEntry.corrupt` models a cache file whose
read raises (the except branch at the top of both cached functions).
The counters record how many times the expensive inference capability
was invoked. -/

/-- Outcome of fetching an image and running one inference pass on it. -/
inductive FetchOutcome (α : Type) where
  | loadFail
  | inferFail
  | ok (val : α)
deriving DecidableEq, Repr

/-- A cache file: readable with the stored value, or unreadable. -/
inductive CacheEntry (α : Type) where
  | good (val : α)
  | corrupt
deriving DecidableEq, Repr

/-- The cache directory of ImageProcessor plus invocation counters for
the two inference capabilities.  Keys are the image URLs (the md5
fingerprint of _get_cache_key is a deterministic injective function of
the URL, so the URL itself serves as the key in the model). -/
structure CacheState (Enc : Type) where
  faces : List (String × CacheEntry (List Enc))
  texts : List (String × CacheEntry (List (List Char)))
  faceCalls : Nat
  ocrCalls : Nat
deriving DecidableEq, Repr

def emptyCache {Enc : Type} : CacheState Enc := ⟨[], [], 0, 0⟩

/-- The external world: the tolerance comparison of compare_faces and
the per-URL results of download plus inference. -/
structure World (Enc : Type) where
  close : Enc → Enc → Bool
  faceInference : String → FetchOutcome (List Enc)
  ocrInference : String → FetchOutcome (List (List Char × ℚ))

/-- Association-list lookup (first binding wins, like the files on
disk: a later write replaces the entry). -/
def alookup {β : Type} (key : String) : List (String × β) → Option β
  | [] => none
  | (k, v) :: rest => if k = key then some v else alookup key rest

/-- The comparison loop of processor.py: for each target encoding run
compare_faces against the known encodings and accept if any entry
matches. -/
def facesMatch {Enc : Type} (w : World Enc) (known : List Enc) (targets : List Enc) : Bool :=
  targets.any fun t => known.any fun e => w.close e t

/-- The OCR confidence threshold of ImageProcessor
(ocr_confidence_threshold = 0.3, the rational three tenths). -/
def ocrConfidenceThreshold : ℚ := mkRat 3 10

/-- The confidence filter applied to raw OCR results before storing or
matching. -/
def filterConfident (results : List (List Char × ℚ)) : List (List Char) :=
  (results.filter fun p => ocrConfidenceThreshold ≤ p.2).map Prod.fst

/-- The cache-miss path of find_faces_in_image (lines 133 to 171 of
processor.py): load the image (None means return False), find faces;
with no faces cache the empty list and return False; otherwise cache
the encodings, then compare against the targets. -/
def find_faces_fresh {Enc : Type} (w : World Enc) (st : CacheState Enc) (url : String)
    (targets : List Enc) : Bool × CacheState Enc :=
  match w.faceInference url with
  | FetchOutcome.loadFail => (false, st)
  | FetchOutcome.inferFail => (false, { st with faceCalls := st.faceCalls + 1 })
  | FetchOutcome.ok encs =>
    let st2 : CacheState Enc :=
      { st with faces := (url, CacheEntry.good encs) :: st.faces,
                faceCalls := st.faceCalls + 1 }
    if encs.isEmpty then (false, st2) else (facesMatch w encs targets, st2)

/-- find_faces_in_image (lines 98 to 171 of processor.py): on a
readable cache entry compare the cached encodings against the targets
without any inference; on a missing or unreadable entry fall through to
the fresh computation. -/
def find_faces_in_image {Enc : Type} (w : World Enc) (st : CacheState Enc) (url : String)
    (targets : List Enc) : Bool × CacheState Enc :=
  match alookup url st.faces with
  | some (CacheEntry.good cached) => (facesMatch w cached targets, st)
  | some CacheEntry.corrupt => find_faces_fresh w st url targets
  | none => find_faces_fresh w st url targets

/-- The matching performed on the cache-hit path of find_text_in_image
(lines 189 to 197 of processor.py): only the raw lower-cased substring
test, with no punctuation stripping and no word-boundary test. -/
def find_text_cached_match (search_text : List Char) (cached : List (List Char)) : Bool :=
  let search_text_lower := pyStrip (lowerL search_text)
  cached.any fun t => containsSubstr search_text_lower (lowerL t)

/-- The cache-miss path of find_text_in_image (lines 201 to 249):
load, run OCR, filter by confidence, cache the surviving texts, then
run the full matching loop. -/
def find_text_fresh {Enc : Type} (w : World Enc) (st : CacheState Enc) (url : String)
    (search_text : List Char) : Bool × CacheState Enc :=
  match w.ocrInference url with
  | FetchOutcome.loadFail => (false, st)
  | FetchOutcome.inferFail => (false, { st with ocrCalls := st.ocrCalls + 1 })
  | FetchOutcome.ok results =>
    let detected := filterConfident results
    let st2 : CacheState Enc :=
      { st with texts := (url, CacheEntry.good detected) :: st.texts,
                ocrCalls := st.ocrCalls + 1 }
    (text_match_loop search_text detected, st2)

/-- find_text_in_image (lines 173 to 249 of processor.py). -/
def find_text_in_image {Enc : Type} (w : World Enc) (st : CacheState Enc) (url : String)
    (search_text : List Char) : Bool × CacheState Enc :=
  match alookup url st.texts with
  | some (CacheEntry.good cached) => (find_text_cached_match search_text cached, st)
  | some CacheEntry.corrupt => find_text_fresh w st url search_text
  | none => find_text_fresh w st url search_text

/-- Downloaded image bytes, represented by what one inference pass on
them would yield (loadFail means PIL could not decode the bytes). -/
structure ImgBytes (Enc : Type) where
  faces : FetchOutcome (List Enc)
  ocr : FetchOutcome (List (List Char × ℚ))

/-- find_faces_in_uploaded_bytes (lines 300 to 337 of processor.py):
decode, find faces (no faces means False), compare against the targets.
No cache is consulted and no cache is written. -/
def find_faces_in_uploaded_bytes {Enc : Type} (w : World Enc) (st : CacheState Enc)
    (img : ImgBytes Enc) (targets : List Enc) : Bool × CacheState Enc :=
  match img.faces with
  | FetchOutcome.loadFail => (false, st)
  | FetchOutcome.inferFail => (false, { st with faceCalls := st.faceCalls + 1 })
  | FetchOutcome.ok encs =>
    (if encs.isEmpty then false else facesMatch w encs targets,
      { st with faceCalls := st.faceCalls + 1 })

/-- find_text_in_uploaded_bytes (lines 339 to 389 of processor.py):
decode, run OCR, filter by confidence, run the full matching loop.
No cache is consulted and no cache is written. -/
def find_text_in_uploaded_bytes {Enc : Type} (st : CacheState Enc)
    (img : ImgBytes Enc) (search_text : List Char) : Bool × CacheState Enc :=
  match img.ocr with
  | FetchOutcome.loadFail => (false, st)
  | FetchOutcome.inferFail => (false, { st with ocrCalls := st.ocrCalls + 1 })
  | FetchOutcome.ok results =>
    (text_match_loop search_text (filterConfident results),
      { st with ocrCalls := st.ocrCalls + 1 })

/-! ## Job model and orchestrator (main.py)

A job is the dictionary created by jobs_start; `error` is the key set
by the except branch of _run_job (the terminal error).  The background
task _run_job is embedded as a function from its environment to the
list of job states visible to concurrent status readers: the event
loop is cooperative and _run_job only suspends at its awaits (the
listing call and each per-image download), so every block of mutations
between two awaits appears as a single state in the list.  The final
element of the list is the terminal state of the job. -/

inductive Phase where
  | queued
  | listing
  | processing
  | done
  | error
deriving DecidableEq, Repr

/-- An element of the matches list of a job (the provider display
metadata carried alongside is opaque and omitted). -/
structure MatchRecord where
  fileId : String
  name : String
deriving DecidableEq, Repr

/-- An element of the errors list of a job. -/
structure ErrorRecord where
  fileId : String
  name : String
  error : String
deriving DecidableEq, Repr

/-- The job dictionary of main.py. -/
structure Job where
  jobId : String
  phase : Phase
  processed : Nat
  total : Nat
  «matches» : List MatchRecord
  errors : List ErrorRecord
  error : Option String
deriving DecidableEq, Repr

/-- The dictionary stored in JOBS by jobs_start (lines 580 to 587 of
main.py). -/
def initJob (jobId : String) : Job :=
  ⟨jobId, Phase.queued, 0, 0, [], [], none⟩

/-- The job right after the first mutation of _run_job. -/
def listingJob (jobId : String) : Job :=
  { initJob jobId with phase := Phase.listing }

/-- detect_provider of cloud_providers.py. -/
def detect_provider (url : List Char) : String :=
  if containsSubstr "drive.google.com".toList url
      || containsSubstr "docs.google.com".toList url then "google_drive"
  else if containsSubstr "onedrive.live.com".toList url
      || containsSubstr "1drv.ms".toList url
      || containsSubstr "sharepoint.com".toList url then "onedrive"
  else "unknown"

/-- Python truthiness of the optional face-image bytes (None and the
empty byte string are falsy); the Option carries the byte count. -/
def truthyBytes : Option Nat → Bool
  | none => false
  | some n => decide (0 < n)

/-- Python truthiness of the optional search string (None and the
empty string are falsy). -/
def truthyText : Option (List Char) → Bool
  | none => false
  | some s => !s.isEmpty

/-- Python truthiness of the optional list of face encodings returned
by encode_face_from_image (None and the empty list are falsy). -/
def truthyEncs {Enc : Type} : Option (List Enc) → Bool
  | none => false
  | some l => !l.isEmpty

/-- The checks of jobs_start after authentication (lines 564 to 577 of
main.py): face-image size limit, criterion presence, session cookie;
then the job is created in phase queued.  No face detection runs
here. -/
def jobs_start_checks (face_bytes : Option Nat) (search_text : Option (List Char))
    (hasSession : Bool) (job_id : String) : Except (Nat × String) Job :=
  if (match face_bytes with | some n => decide (10 * 1024 * 1024 < n) | none => false) then
    Except.error (400, "Face image too large (max 10MB)")
  else if !truthyBytes face_bytes && !truthyText search_text then
    Except.error (400, "Either face_image or search_text must be provided")
  else if !hasSession then
    Except.error (401, "Not authenticated")
  else
    Except.ok (initJob job_id)

/-- jobs_start of main.py (lines 547 to 593): provider detection and
token requirement, then the synchronous validation checks.  An error
value is an HTTPException (status, detail) raised before any job is
created. -/
def jobs_start (folder_url : List Char) (hasGoogleToken hasMicrosoftToken : Bool)
    (face_bytes : Option Nat) (search_text : Option (List Char))
    (hasSession : Bool) (job_id : String) : Except (Nat × String) Job :=
  if detect_provider folder_url = "google_drive" then
    if hasGoogleToken then jobs_start_checks face_bytes search_text hasSession job_id
    else Except.error (401, "Not logged in with Google")
  else if detect_provider folder_url = "onedrive" then
    if hasMicrosoftToken then jobs_start_checks face_bytes search_text hasSession job_id
    else Except.error (401, "Not logged in with Microsoft")
  else
    Except.error (400, "Unsupported provider. Please use Google Drive or OneDrive links.")

/-- One listed file together with the outcome of downloading it: the
error message of the raised exception, or the downloaded bytes. -/
structure ImageData (Enc : Type) where
  id : String
  name : String
  download : Except String (ImgBytes Enc)

/-- The environment of one _run_job invocation: the submitted folder
URL, the session and token state, the outcome of the listing adapter
for each provider, the uploaded reference-image bytes, the result
encode_face_from_image would give on them, and the search string. -/
structure RunEnv (Enc : Type) where
  jobId : String
  folder_url : List Char
  sessionExists : Bool
  hasGoogleToken : Bool
  hasMicrosoftToken : Bool
  listGoogle : Except String (List (ImageData Enc))
  listOneDrive : Except String (List (ImageData Enc))
  face_bytes : Option Nat
  encodeFace : Option (List Enc)
  search_text : Option (List Char)

/-- The match evaluation on one successfully downloaded image inside
_run_job: the face check runs only when encodings are truthy, and the
text check only when no face matched and the search string is truthy
(lines 464 to 468 of main.py). -/
def imageCheck {Enc : Type} (w : World Enc) (face_encodings : Option (List Enc))
    (search_text : Option (List Char)) (st : CacheState Enc) (bytes : ImgBytes Enc) :
    Bool × CacheState Enc :=
  let fres :=
    if truthyEncs face_encodings then
      find_faces_in_uploaded_bytes w st bytes (face_encodings.getD [])
    else (false, st)
  if !fres.1 && truthyText search_text then
    find_text_in_uploaded_bytes fres.2 bytes (search_text.getD [])
  else fres

/-- The body of the per-image loop of _run_job (lines 460 to 484 and
498 to 522 of main.py): download (an exception appends an error record
in the except branch), otherwise run the face check and then the text
check on the bytes; append a match record if matched.  The finally
branch increments processed in every case. -/
def imageStep {Enc : Type} (w : World Enc) (face_encodings : Option (List Enc))
    (search_text : Option (List Char)) (j : Job) (st : CacheState Enc)
    (img : ImageData Enc) : Job × CacheState Enc :=
  match img.download with
  | Except.error msg =>
    ({ j with errors := j.errors ++ [⟨img.id, img.name, msg⟩],
              processed := j.processed + 1 }, st)
  | Except.ok bytes =>
    let r := imageCheck w face_encodings search_text st bytes
    ({ j with «matches» := if r.1 then j.matches ++ [⟨img.id, img.name⟩] else j.matches,
              processed := j.processed + 1 }, r.2)

/-- The per-image loop: returns the list of job states after each
image (each is the state visible while awaiting the next download),
the job state after the loop, and the final cache state. -/
def processImagesLoop {Enc : Type} (w : World Enc) (face_encodings : Option (List Enc))
    (search_text : Option (List Char)) :
    Job → CacheState Enc → List (ImageData Enc) → List Job × Job × CacheState Enc
  | j, st, [] => ([], j, st)
  | j, st, img :: rest =>
    let p := imageStep w face_encodings search_text j st img
    let q := processImagesLoop w face_encodings search_text p.1 p.2 rest
    (p.1 :: q.1, q.2.1, q.2.2)

/-- The trace of a fatal failure inside _run_job: the phase was already
set to listing, then the except branch sets phase error and records the
message. -/
def fatalTrace (jobId msg : String) : List Job :=
  [initJob jobId, listingJob jobId,
    { listingJob jobId with phase := Phase.error, error := some msg }]

/-- The successful-listing tail of _run_job: set total and move to
processing, compute the reference face encodings once (only when face
bytes were supplied), run the per-image loop, then set phase done. -/
def runListed {Enc : Type} (w : World Enc) (env : RunEnv Enc) (st0 : CacheState Enc)
    (files : List (ImageData Enc)) : List Job × CacheState Enc :=
  let jB := { listingJob env.jobId with total := files.length, phase := Phase.processing }
  let fe := if truthyBytes env.face_bytes then env.encodeFace else none
  let q := processImagesLoop w fe env.search_text jB st0 files
  ([initJob env.jobId, listingJob env.jobId, jB] ++ q.1
      ++ [{ q.2.1 with phase := Phase.done }], q.2.2)

/-- _run_job of main.py (lines 428 to 531), as the list of observable
job states paired with the final cache state.  The session check, the
token checks, a listing failure and an unsupported provider all raise
inside the try after the phase was set to listing, so each produces the
fatal trace with the corresponding message. -/
def run_job {Enc : Type} (w : World Enc) (env : RunEnv Enc) (st0 : CacheState Enc) :
    List Job × CacheState Enc :=
  if !env.sessionExists then (fatalTrace env.jobId "Session expired", st0)
  else if detect_provider env.folder_url = "google_drive" then
    if !env.hasGoogleToken then (fatalTrace env.jobId "Google token not found", st0)
    else match env.listGoogle with
      | Except.error msg => (fatalTrace env.jobId msg, st0)
      | Except.ok files => runListed w env st0 files
  else if detect_provider env.folder_url = "onedrive" then
    if !env.hasMicrosoftToken then (fatalTrace env.jobId "Microsoft token not found", st0)
    else match env.listOneDrive with
      | Except.error msg => (fatalTrace env.jobId msg, st0)
      | Except.ok files => runListed w env st0 files
  else
    (fatalTrace env.jobId ("Unsupported provider: " ++ detect_provider env.folder_url), st0)

/-- Whether a result is a success (no exception was raised). -/
def exceptIsOk {ε α : Type} : Except ε α → Bool
  | Except.ok _ => true
  | Except.error _ => false

/-- Terminal phases of the job state machine. -/
def terminalPhase : Phase → Bool
  | Phase.done => true
  | Phase.error => true
  | _ => false

/-- The transitions of the specified job state machine: queued to
listing to processing to done, with error reachable from listing or
processing. -/
def allowedTransition : Phase → Phase → Bool
  | Phase.queued, Phase.listing => true
  | Phase.listing, Phase.processing => true
  | Phase.processing, Phase.done => true
  | Phase.listing, Phase.error => true
  | Phase.processing, Phase.error => true
  | _, _ => false

/-- One observable step of a job either keeps the phase (a per-image
update) or follows an allowed transition, and never leaves a state
whose phase is terminal. -/
def stepOkB (a b : Job) : Bool :=
  (a.phase == b.phase || allowedTransition a.phase b.phase) && !terminalPhase a.phase

/-- Every adjacent pair of states in the list satisfies stepOkB. -/
def chainOkB : List Job → Bool
  | [] => true
  | [_] => true
  | a :: b :: rest => stepOkB a b && chainOkB (b :: rest)

/-- The match evaluation for one image URL inside the /search loop:
the face check through the cached find_faces_in_image runs only when
encodings are truthy, and the cached text check only when no face
matched and the search string is truthy (lines 168 to 176 of
main.py). -/
def searchCheck {Enc : Type} (w : World Enc) (face_encodings : Option (List Enc))
    (search_text : Option (List Char)) (st : CacheState Enc) (url : String) :
    Bool × CacheState Enc :=
  let fres :=
    if truthyEncs face_encodings then
      find_faces_in_image w st url (face_encodings.getD [])
    else (false, st)
  if !fres.1 && truthyText search_text then
    find_text_in_image w fres.2 url (search_text.getD [])
  else fres

/-- The per-image loop of the synchronous /search handler
(search_photos, lines 160 to 187 of main.py) over one album: the same
face-then-text evaluation but through the URL-keyed cached functions,
collecting only the matching URLs.  No error records exist on this
path. -/
def search_photos_loop {Enc : Type} (w : World Enc) (face_encodings : Option (List Enc))
    (search_text : Option (List Char)) :
    CacheState Enc → List String → List String × CacheState Enc
  | st, [] => ([], st)
  | st, url :: rest =>
    let r := searchCheck w face_encodings search_text st url
    let q := search_photos_loop w face_encodings search_text r.2 rest
    ((if r.1 then url :: q.1 else q.1), q.2)

/-! ## Concrete instantiations used for witnesses and counterexamples
(the abstract encoding type is taken to be Nat, with equality as the
tolerance comparison) -/

def wT : World Nat :=
  ⟨fun a b => a == b, fun _ => FetchOutcome.loadFail, fun _ => FetchOutcome.loadFail⟩

def gURL : List Char := "https://drive.google.com/drive/folders/abc".toList

def imgT : ImageData Nat :=
  ⟨"f1", "n1", Except.ok ⟨FetchOutcome.ok [5], FetchOutcome.loadFail⟩⟩

def envT : RunEnv Nat :=
  ⟨"j", gURL, true, true, false, Except.ok [imgT, imgT], Except.error "x",
    some 100, some [5], none⟩

def w6 : World Nat :=
  ⟨fun _ _ => false, fun _ => FetchOutcome.loadFail,
    fun _ => FetchOutcome.ok [("7 Home".toList, 1)]⟩

def w10 : World Nat :=
  ⟨fun a b => a == b, fun _ => FetchOutcome.ok [7], fun _ => FetchOutcome.loadFail⟩

def st10 : CacheState Nat := ⟨[("u", CacheEntry.corrupt)], [], 0, 0⟩

/-- An environment whose listing adapter fails with a Drive API error. -/
def envFail : RunEnv Nat :=
  ⟨"j", gURL, true, true, false, Except.error "Drive API error: boom", Except.error "x",
    none, none, some "7".toList⟩

/-- An environment with a reference image in which no face is detected:
face bytes are supplied (truthy), encode_face_from_image returns None,
no search text; the listing returns one downloadable image. -/
def envNoFace : RunEnv Nat :=
  ⟨"j", gURL, true, true, false,
    Except.ok [⟨"f1", "n1", Except.ok ⟨FetchOutcome.ok [9], FetchOutcome.loadFail⟩⟩],
    Except.error "x", some 100, none, none⟩

/-- An environment listing one image whose download fails. -/
def envDlFail : RunEnv Nat :=
  ⟨"j", gURL, true, true, false,
    Except.ok [⟨"f1", "n1", Except.error "Failed to download file f1: 500"⟩],
    Except.error "x", none, none, some "7".toList⟩

/-- A listed image whose download raises. -/
def imgFail : ImageData Nat := ⟨"f1", "n1", Except.error "boom"⟩

/-- A listed image whose download succeeds but on whose bytes both
inference passes raise (a feature-extraction failure). -/
def imgExtractFail : ImageData Nat :=
  ⟨"f1", "n1", Except.ok ⟨FetchOutcome.inferFail, FetchOutcome.inferFail⟩⟩

/-- An environment whose listing succeeds with no images. -/
def envEmpty : RunEnv Nat :=
  ⟨"j", gURL, true, true, false, Except.ok [], Except.error "x", none, none, some "7".toList⟩

/-- The terminal state of the job run in envEmpty. -/
def jW3 : Job := ⟨"j", Phase.done, 0, 0, [], [], none⟩

/-- A world in which the image at any URL contains the face encoding 3
and the readable text 7 Home at confidence 1. -/
def wC6 : World Nat :=
  ⟨fun a b => a == b, fun _ => FetchOutcome.ok [3],
    fun _ => FetchOutcome.ok [("7 Home".toList, 1)]⟩

/-- An environment listing exactly one downloadable image carrying the
face encoding 5, searched for with a reference face that encodes to 5. -/
def envOne : RunEnv Nat :=
  ⟨"j", gURL, true, true, false, Except.ok [imgT], Except.error "x",
    some 100, some [5], none⟩

/-! ## Helper lemmas about the embedded definitions -/

theorem find_faces_in_uploaded_bytes_state {Enc : Type} (w : World Enc) (st : CacheState Enc)
    (b : ImgBytes Enc) (targets : List Enc) :
    (find_faces_in_uploaded_bytes w st b targets).2.faces = st.faces
    ∧ (find_faces_in_uploaded_bytes w st b targets).2.texts = st.texts := by
  cases h : b.faces <;> simp [find_faces_in_uploaded_bytes, h]

theorem find_text_in_uploaded_bytes_state {Enc : Type} (st : CacheState Enc)
    (b : ImgBytes Enc) (s : List Char) :
    (find_text_in_uploaded_bytes st b s).2.faces = st.faces
    ∧ (find_text_in_uploaded_bytes st b s).2.texts = st.texts
    ∧ (find_text_in_uploaded_bytes st b s).2.faceCalls = st.faceCalls := by
  cases h : b.ocr <;> simp [find_text_in_uploaded_bytes, h]

theorem textPhase_state {Enc : Type} (c : Bool) (b : ImgBytes Enc) (s2 : List Char)
    (st : CacheState Enc) (p : Bool × CacheState Enc)
    (hf : p.2.faces = st.faces) (ht : p.2.texts = st.texts) :
    (if !p.1 && c then find_text_in_uploaded_bytes p.2 b s2 else p).2.faces = st.faces
    ∧ (if !p.1 && c then find_text_in_uploaded_bytes p.2 b s2 else p).2.texts = st.texts := by
  split
  · exact ⟨by rw [(find_text_in_uploaded_bytes_state _ _ _).1, hf],
      by rw [(find_text_in_uploaded_bytes_state _ _ _).2.1, ht]⟩
  · exact ⟨hf, ht⟩

theorem textPhase_result {Enc : Type} (c : Bool) (b : ImgBytes Enc) (s2 : List Char)
    (p : Bool × CacheState Enc) (hp : p.1 = false)
    (hb : ∀ st2 : CacheState Enc, (find_text_in_uploaded_bytes st2 b s2).1 = false) :
    (if !p.1 && c then find_text_in_uploaded_bytes p.2 b s2 else p).1 = false := by
  split
  · exact hb _
  · exact hp

theorem imageCheck_fail {Enc : Type} (w : World Enc) (fe : Option (List Enc))
    (s : Option (List Char)) (st : CacheState Enc) (bytes : ImgBytes Enc)
    (hbf : bytes.faces = FetchOutcome.loadFail ∨ bytes.faces = FetchOutcome.inferFail)
    (hbo : bytes.ocr = FetchOutcome.loadFail ∨ bytes.ocr = FetchOutcome.inferFail) :
    (imageCheck w fe s st bytes).1 = false := by
  have hff : ∀ (st2 : CacheState Enc) (targets : List Enc),
      (find_faces_in_uploaded_bytes w st2 bytes targets).1 = false := by
    intro st2 targets
    rcases hbf with h | h <;> simp [find_faces_in_uploaded_bytes, h]
  have hft : ∀ (st2 : CacheState Enc) (s2 : List Char),
      (find_text_in_uploaded_bytes st2 bytes s2).1 = false := by
    intro st2 s2
    rcases hbo with h | h <;> simp [find_text_in_uploaded_bytes, h]
  have hp : ((if truthyEncs fe then find_faces_in_uploaded_bytes w st bytes (fe.getD [])
      else (false, st)) : Bool × CacheState Enc).1 = false := by
    split
    · exact hff _ _
    · rfl
  simp only [imageCheck]
  exact textPhase_result (truthyText s) bytes (s.getD []) _ hp fun st2 => hft st2 _

theorem imageCheck_state {Enc : Type} (w : World Enc) (fe : Option (List Enc))
    (s : Option (List Char)) (st : CacheState Enc) (b : ImgBytes Enc) :
    (imageCheck w fe s st b).2.faces = st.faces
    ∧ (imageCheck w fe s st b).2.texts = st.texts := by
  have hp : ((if truthyEncs fe then find_faces_in_uploaded_bytes w st b (fe.getD [])
        else (false, st)) : Bool × CacheState Enc).2.faces = st.faces
      ∧ ((if truthyEncs fe then find_faces_in_uploaded_bytes w st b (fe.getD [])
        else (false, st)) : Bool × CacheState Enc).2.texts = st.texts := by
    split
    · exact ⟨(find_faces_in_uploaded_bytes_state _ _ _ _).1,
        (find_faces_in_uploaded_bytes_state _ _ _ _).2⟩
    · exact ⟨rfl, rfl⟩
  simp only [imageCheck]
  exact textPhase_state (truthyText s) b (s.getD []) st _ hp.1 hp.2

theorem imageStep_job {Enc : Type} (w : World Enc) (fe : Option (List Enc))
    (s : Option (List Char)) (j : Job) (st : CacheState Enc) (img : ImageData Enc) :
    (imageStep w fe s j st img).1.processed = j.processed + 1
    ∧ (imageStep w fe s j st img).1.phase = j.phase
    ∧ (imageStep w fe s j st img).1.total = j.total
    ∧ (imageStep w fe s j st img).1.jobId = j.jobId := by
  cases h : img.download <;> simp [imageStep, h]

theorem imageStep_sum {Enc : Type} (w : World Enc) (fe : Option (List Enc))
    (s : Option (List Char)) (j : Job) (st : CacheState Enc) (img : ImageData Enc) :
    (imageStep w fe s j st img).1.matches.length + (imageStep w fe s j st img).1.errors.length
      ≤ j.matches.length + j.errors.length + 1 := by
  cases h : img.download
  · simp [imageStep, h]
    omega
  · simp only [imageStep, h]
    split <;> simp [Nat.add_right_comm]

theorem imageStep_state {Enc : Type} (w : World Enc) (fe : Option (List Enc))
    (s : Option (List Char)) (j : Job) (st : CacheState Enc) (img : ImageData Enc) :
    (imageStep w fe s j st img).2.faces = st.faces
    ∧ (imageStep w fe s j st img).2.texts = st.texts := by
  cases h : img.download
  · simp [imageStep, h]
  · simp only [imageStep, h]
    exact imageCheck_state w fe s st _

theorem imageStep_matches_of_trivial {Enc : Type} (w : World Enc)
    (s : Option (List Char)) (j : Job) (st : CacheState Enc) (img : ImageData Enc)
    (hs : truthyText s = false) :
    (imageStep w none s j st img).1.matches = j.matches := by
  cases h : img.download
  · simp [imageStep, h]
  · simp [imageStep, h, imageCheck, truthyEncs, hs]

theorem processImagesLoop_length {Enc : Type} (w : World Enc) (fe : Option (List Enc))
    (s : Option (List Char)) :
    ∀ (files : List (ImageData Enc)) (j : Job) (st : CacheState Enc),
      (processImagesLoop w fe s j st files).1.length = files.length
  | [], _, _ => rfl
  | img :: rest, j, st => by
    simp only [processImagesLoop, List.length_cons]
    rw [processImagesLoop_length w fe s rest _ _]

theorem processImagesLoop_mem_phase {Enc : Type} (w : World Enc) (fe : Option (List Enc))
    (s : Option (List Char)) :
    ∀ (files : List (ImageData Enc)) (j : Job) (st : CacheState Enc),
      ∀ k ∈ (processImagesLoop w fe s j st files).1, k.phase = j.phase
  | [], _, _ => by simp [processImagesLoop]
  | img :: rest, j, st => by
    intro k hk
    simp only [processImagesLoop, List.mem_cons] at hk
    rcases hk with rfl | hk
    · exact (imageStep_job w fe s j st img).2.1
    · rw [processImagesLoop_mem_phase w fe s rest _ _ k hk]
      exact (imageStep_job w fe s j st img).2.1

theorem processImagesLoop_mem_inv {Enc : Type} (w : World Enc) (fe : Option (List Enc))
    (s : Option (List Char)) :
    ∀ (files : List (ImageData Enc)) (j : Job) (st : CacheState Enc),
      j.matches.length + j.errors.length ≤ j.processed →
      j.processed + files.length ≤ j.total →
      ∀ k ∈ (processImagesLoop w fe s j st files).1,
        k.matches.length + k.errors.length ≤ k.processed ∧ k.processed ≤ k.total
  | [], _, _ => by simp [processImagesLoop]
  | img :: rest, j, st => by
    intro h1 h2 k hk
    simp only [List.length_cons] at h2
    have hstep := imageStep_job w fe s j st img
    have hsum := imageStep_sum w fe s j st img
    simp only [processImagesLoop, List.mem_cons] at hk
    rcases hk with rfl | hk
    · constructor
      · omega
      · rw [hstep.1, hstep.2.2.1]
        omega
    · exact processImagesLoop_mem_inv w fe s rest _ _ (by omega)
        (by rw [hstep.1, hstep.2.2.1]; omega) k hk

theorem processImagesLoop_final {Enc : Type} (w : World Enc) (fe : Option (List Enc))
    (s : Option (List Char)) :
    ∀ (files : List (ImageData Enc)) (j : Job) (st : CacheState Enc),
      (processImagesLoop w fe s j st files).2.1.processed = j.processed + files.length
      ∧ (processImagesLoop w fe s j st files).2.1.total = j.total
      ∧ (processImagesLoop w fe s j st files).2.1.phase = j.phase
      ∧ (processImagesLoop w fe s j st files).2.1.jobId = j.jobId
      ∧ (j.matches.length + j.errors.length ≤ j.processed →
          (processImagesLoop w fe s j st files).2.1.matches.length
            + (processImagesLoop w fe s j st files).2.1.errors.length
            ≤ (processImagesLoop w fe s j st files).2.1.processed)
  | [], j, st => by simp [processImagesLoop]
  | img :: rest, j, st => by
    have hstep := imageStep_job w fe s j st img
    have hsum := imageStep_sum w fe s j st img
    have ih := processImagesLoop_final w fe s rest (imageStep w fe s j st img).1
      (imageStep w fe s j st img).2
    simp only [processImagesLoop, List.length_cons]
    refine ⟨?_, ?_, ?_, ?_, ?_⟩
    · rw [ih.1, hstep.1]; omega
    · rw [ih.2.1, hstep.2.2.1]
    · rw [ih.2.2.1, hstep.2.1]
    · rw [ih.2.2.2.1, hstep.2.2.2]
    · intro h1
      refine ih.2.2.2.2 ?_
      omega

theorem processImagesLoop_final_matches {Enc : Type} (w : World Enc)
    (s : Option (List Char)) (hs : truthyText s = false) :
    ∀ (files : List (ImageData Enc)) (j : Job) (st : CacheState Enc),
      (processImagesLoop w none s j st files).2.1.matches = j.matches
  | [], j, st => rfl
  | img :: rest, j, st => by
    simp only [processImagesLoop]
    rw [processImagesLoop_final_matches w s hs rest _ _]
    exact imageStep_matches_of_trivial w s j st img hs

theorem processImagesLoop_state {Enc : Type} (w : World Enc) (fe : Option (List Enc))
    (s : Option (List Char)) :
    ∀ (files : List (ImageData Enc)) (j : Job) (st : CacheState Enc),
      (processImagesLoop w fe s j st files).2.2.faces = st.faces
      ∧ (processImagesLoop w fe s j st files).2.2.texts = st.texts
  | [], j, st => ⟨rfl, rfl⟩
  | img :: rest, j, st => by
    have h1 := imageStep_state w fe s j st img
    have ih := processImagesLoop_state w fe s rest (imageStep w fe s j st img).1
      (imageStep w fe s j st img).2
    simp only [processImagesLoop]
    exact ⟨by rw [ih.1, h1.1], by rw [ih.2, h1.2]⟩

/-- The safety properties that hold of every observable job state. -/
def GoodJob (j : Job) : Prop :=
  j.processed ≤ j.total
  ∧ j.matches.length + j.errors.length ≤ j.processed
  ∧ (j.phase = Phase.done → j.processed = j.total)
  ∧ (j.phase = Phase.error →
      j.processed = 0 ∧ j.matches = [] ∧ j.errors = [] ∧ j.total = 0 ∧ j.error.isSome = true)

theorem fatalTrace_mem (jobId msg : String) :
    ∀ j ∈ fatalTrace jobId msg, GoodJob j := by
  intro j hj
  simp only [fatalTrace, List.mem_cons, List.mem_singleton, List.not_mem_nil, or_false] at hj
  rcases hj with rfl | rfl | rfl <;>
    refine ⟨?_, ?_, ?_, ?_⟩ <;> simp [initJob, listingJob, GoodJob]

theorem runListed_mem_good {Enc : Type} (w : World Enc) (env : RunEnv Enc)
    (st0 : CacheState Enc) (files : List (ImageData Enc)) :
    ∀ j ∈ (runListed w env st0 files).1, GoodJob j := by
  intro j hj
  simp only [runListed, List.append_assoc, List.mem_append, List.mem_cons,
    List.mem_singleton, List.not_mem_nil, or_false] at hj
  rcases hj with (rfl | rfl | rfl) | hj | rfl
  · refine ⟨?_, ?_, ?_, ?_⟩ <;> simp [initJob, listingJob]
  · refine ⟨?_, ?_, ?_, ?_⟩ <;> simp [initJob, listingJob]
  · refine ⟨?_, ?_, ?_, ?_⟩ <;> simp [initJob, listingJob]
  · have hphase := processImagesLoop_mem_phase w _ env.search_text files _ st0 j hj
    have hinv := processImagesLoop_mem_inv w _ env.search_text files _ st0
      (by simp [initJob, listingJob]) (by simp [initJob, listingJob]) j hj
    simp only [initJob, listingJob] at hphase
    refine ⟨hinv.2, hinv.1, ?_, ?_⟩ <;> intro hp <;> rw [hp] at hphase <;> cases hphase
  · have hfin := processImagesLoop_final w
      (if truthyBytes env.face_bytes then env.encodeFace else none) env.search_text files
      { listingJob env.jobId with total := files.length, phase := Phase.processing } st0
    refine ⟨?_, ?_, ?_, ?_⟩
    · dsimp only
      rw [hfin.1, hfin.2.1]
      simp [initJob, listingJob]
    · dsimp only
      exact hfin.2.2.2.2 (by simp [initJob, listingJob])
    · intro _
      dsimp only
      rw [hfin.1, hfin.2.1]
      simp [initJob, listingJob]
    · intro hp
      cases hp

theorem run_job_mem_good {Enc : Type} (w : World Enc) (env : RunEnv Enc)
    (st0 : CacheState Enc) :
    ∀ j ∈ (run_job w env st0).1, GoodJob j := by
  intro j hj
  unfold run_job at hj
  split at hj
  · exact fatalTrace_mem _ _ j hj
  · split at hj
    · split at hj
      · exact fatalTrace_mem _ _ j hj
      · split at hj
        · exact fatalTrace_mem _ _ j hj
        · exact runListed_mem_good w env st0 _ j hj
    · split at hj
      · split at hj
        · exact fatalTrace_mem _ _ j hj
        · split at hj
          · exact fatalTrace_mem _ _ j hj
          · exact runListed_mem_good w env st0 _ j hj
      · exact fatalTrace_mem _ _ j hj

theorem chainOkB_processing (d : Job) (hd : d.phase = Phase.done) :
    ∀ (l : List Job) (a : Job), a.phase = Phase.processing →
      (∀ k ∈ l, k.phase = Phase.processing) → chainOkB (a :: (l ++ [d])) = true
  | [], a, ha, _ => by
    simp [chainOkB, stepOkB, ha, hd, allowedTransition, terminalPhase]
  | k :: l, a, ha, hl => by
    have hk : k.phase = Phase.processing := hl k (List.mem_cons_self _ _)
    simp only [List.cons_append, chainOkB, Bool.and_eq_true]
    constructor
    · simp [stepOkB, ha, hk, terminalPhase]
    · have := chainOkB_processing d hd l k hk fun x hx => hl x (List.mem_cons_of_mem _ hx)
      simpa [List.cons_append] using this

theorem runListed_chain {Enc : Type} (w : World Enc) (env : RunEnv Enc)
    (st0 : CacheState Enc) (files : List (ImageData Enc)) :
    chainOkB ((runListed w env st0 files).1) = true := by
  simp only [runListed, List.cons_append, List.nil_append, chainOkB, Bool.and_eq_true]
  refine ⟨?_, ?_, ?_⟩
  · simp [stepOkB, initJob, listingJob, allowedTransition, terminalPhase]
  · simp [stepOkB, initJob, listingJob, allowedTransition, terminalPhase]
  · have hphase := processImagesLoop_mem_phase w
      (if truthyBytes env.face_bytes then env.encodeFace else none) env.search_text files
      { listingJob env.jobId with total := files.length, phase := Phase.processing } st0
    have hfin := processImagesLoop_final w
      (if truthyBytes env.face_bytes then env.encodeFace else none) env.search_text files
      { listingJob env.jobId with total := files.length, phase := Phase.processing } st0
    exact chainOkB_processing _ rfl _ _ rfl fun k hk => hphase k hk

theorem fatalTrace_chain (jobId msg : String) : chainOkB (fatalTrace jobId msg) = true := by
  simp [fatalTrace, chainOkB, stepOkB, initJob, listingJob, allowedTransition, terminalPhase]

theorem find_faces_fail {Enc : Type} (w : World Enc) (st : CacheState Enc) (url : String)
    (targets : List Enc) (hcf : alookup url st.faces = none)
    (hf : w.faceInference url = FetchOutcome.loadFail
      ∨ w.faceInference url = FetchOutcome.inferFail) :
    (find_faces_in_image w st url targets).1 = false
    ∧ (find_faces_in_image w st url targets).2.faces = st.faces
    ∧ (find_faces_in_image w st url targets).2.texts = st.texts := by
  rcases hf with hf | hf <;> simp [find_faces_in_image, hcf, find_faces_fresh, hf]

theorem find_text_fail {Enc : Type} (w : World Enc) (st : CacheState Enc) (url : String)
    (stext : List Char) (hct : alookup url st.texts = none)
    (ht : w.ocrInference url = FetchOutcome.loadFail
      ∨ w.ocrInference url = FetchOutcome.inferFail) :
    (find_text_in_image w st url stext).1 = false
    ∧ (find_text_in_image w st url stext).2.faces = st.faces
    ∧ (find_text_in_image w st url stext).2.texts = st.texts := by
  rcases ht with ht | ht <;> simp [find_text_in_image, hct, find_text_fresh, ht]

theorem find_faces_other {Enc : Type} (w : World Enc) (st : CacheState Enc) (u : String)
    (targets : List Enc) (url : String) (hne : u ≠ url) :
    alookup url (find_faces_in_image w st u targets).2.faces = alookup url st.faces
    ∧ alookup url (find_faces_in_image w st u targets).2.texts = alookup url st.texts := by
  unfold find_faces_in_image find_faces_fresh
  split
  · exact ⟨rfl, rfl⟩
  · split
    · exact ⟨rfl, rfl⟩
    · exact ⟨rfl, rfl⟩
    · split <;> exact ⟨by simp [alookup, hne], rfl⟩
  · split
    · exact ⟨rfl, rfl⟩
    · exact ⟨rfl, rfl⟩
    · split <;> exact ⟨by simp [alookup, hne], rfl⟩

theorem find_text_other {Enc : Type} (w : World Enc) (st : CacheState Enc) (u : String)
    (stext : List Char) (url : String) (hne : u ≠ url) :
    alookup url (find_text_in_image w st u stext).2.faces = alookup url st.faces
    ∧ alookup url (find_text_in_image w st u stext).2.texts = alookup url st.texts := by
  unfold find_text_in_image find_text_fresh
  split
  · exact ⟨rfl, rfl⟩
  · split
    · exact ⟨rfl, rfl⟩
    · exact ⟨rfl, rfl⟩
    · exact ⟨rfl, by simp [alookup, hne]⟩
  · split
    · exact ⟨rfl, rfl⟩
    · exact ⟨rfl, rfl⟩
    · exact ⟨rfl, by simp [alookup, hne]⟩

theorem searchCheck_self {Enc : Type} (w : World Enc) (fe : Option (List Enc))
    (sOpt : Option (List Char)) (st : CacheState Enc) (url : String)
    (hcf : alookup url st.faces = none) (hct : alookup url st.texts = none)
    (hf : w.faceInference url = FetchOutcome.loadFail
      ∨ w.faceInference url = FetchOutcome.inferFail)
    (ht : w.ocrInference url = FetchOutcome.loadFail
      ∨ w.ocrInference url = FetchOutcome.inferFail) :
    (searchCheck w fe sOpt st url).1 = false
    ∧ alookup url (searchCheck w fe sOpt st url).2.faces = none
    ∧ alookup url (searchCheck w fe sOpt st url).2.texts = none := by
  simp only [searchCheck]
  split
  · have h1 := find_faces_fail w st url (fe.getD []) hcf hf
    split
    · have h2 := find_text_fail w (find_faces_in_image w st url (fe.getD [])).2 url
        (sOpt.getD []) (by rw [h1.2.2]; exact hct) ht
      exact ⟨h2.1, by rw [h2.2.1, h1.2.1]; exact hcf, by rw [h2.2.2, h1.2.2]; exact hct⟩
    · exact ⟨h1.1, by rw [h1.2.1]; exact hcf, by rw [h1.2.2]; exact hct⟩
  · split
    · have h2 := find_text_fail w st url (sOpt.getD []) hct ht
      exact ⟨h2.1, by rw [h2.2.1]; exact hcf, by rw [h2.2.2]; exact hct⟩
    · exact ⟨rfl, hcf, hct⟩

theorem searchCheck_other {Enc : Type} (w : World Enc) (fe : Option (List Enc))
    (sOpt : Option (List Char)) (st : CacheState Enc) (u url : String) (hne : u ≠ url) :
    alookup url (searchCheck w fe sOpt st u).2.faces = alookup url st.faces
    ∧ alookup url (searchCheck w fe sOpt st u).2.texts = alookup url st.texts := by
  simp only [searchCheck]
  split
  · split
    · have h1 := find_faces_other w st u (fe.getD []) url hne
      have h2 := find_text_other w (find_faces_in_image w st u (fe.getD [])).2 u
        (sOpt.getD []) url hne
      exact ⟨by rw [h2.1, h1.1], by rw [h2.2, h1.2]⟩
    · exact find_faces_other w st u (fe.getD []) url hne
  · split
    · exact find_text_other w st u (sOpt.getD []) url hne
    · exact ⟨rfl, rfl⟩

theorem search_loop_skip {Enc : Type} (w : World Enc) (fe : Option (List Enc))
    (sOpt : Option (List Char)) (url : String)
    (hf : w.faceInference url = FetchOutcome.loadFail
      ∨ w.faceInference url = FetchOutcome.inferFail)
    (ht : w.ocrInference url = FetchOutcome.loadFail
      ∨ w.ocrInference url = FetchOutcome.inferFail) :
    ∀ (urls : List String) (st : CacheState Enc),
      alookup url st.faces = none → alookup url st.texts = none →
      url ∉ (search_photos_loop w fe sOpt st urls).1
  | [], st, _, _ => by simp [search_photos_loop]
  | u :: rest, st, hcf, hct => by
    simp only [search_photos_loop]
    by_cases hu : u = url
    · subst hu
      have hs := searchCheck_self w fe sOpt st u hcf hct hf ht
      rw [hs.1]
      simpa using search_loop_skip w fe sOpt u hf ht rest
        (searchCheck w fe sOpt st u).2 hs.2.1 hs.2.2
    · have ho := searchCheck_other w fe sOpt st u url hu
      have ih := search_loop_skip w fe sOpt url hf ht rest
        (searchCheck w fe sOpt st u).2 (by rw [ho.1]; exact hcf) (by rw [ho.2]; exact hct)
      split
      · simp only [List.mem_cons, not_or]
        exact ⟨fun h => hu h.symm, ih⟩
      · exact ih

theorem facesMatch_nil {Enc : Type} (w : World Enc) (targets : List Enc) :
    facesMatch w [] targets = false := by
  simp [facesMatch]

/-! ## Claims -/

/-- Claim C1, counterexample.  The claim states that for a purely
numeric search string the text check reports a match only when the
number occurs with whole-word boundaries in the punctuation-stripped
detected text, and in particular that searching 7 does not match the
detected text 47 Away.  In the code the word-boundary test is an extra
disjunct after the two substring tests, not a filter: the search string
7 is a raw substring of the lowering of 47 Away, so the matching loop
reports a match even though no word-bounded occurrence exists. -/
theorem C1_counterexample :
    text_match_loop "7".toList ["47 Away".toList] = true
    ∧ searchWordBounded (stripPunct (pyStrip (lowerL "7".toList))) none
        (stripPunct (lowerL "47 Away".toList)) = false := by
  exact ⟨by decide, by decide⟩

/-- Claim C1, amended.  For every search string (numeric or not), a
substring occurrence of the normalized search string in the
punctuation-stripped detected text suffices for the text check to
report a match; the numeric word-boundary test is an additional
sufficient condition and never restricts the substring matches, so
searching 7 matches both the detected text #7 Home and the detected
text 47 Away. -/
theorem C1_amended_substring_suffices (search : List Char) (texts : List (List Char))
    (t : List Char) (ht : t ∈ texts)
    (hsub : containsSubstr (stripPunct (pyStrip (lowerL search)))
      (stripPunct (lowerL t)) = true) :
    text_match_loop search texts = true := by
  simp only [text_match_loop, List.any_eq_true]
  exact ⟨t, ht, by simp [hsub]⟩

theorem C1_amended_witness :
    ("47 Away".toList ∈ ["47 Away".toList])
    ∧ containsSubstr (stripPunct (pyStrip (lowerL "7".toList)))
        (stripPunct (lowerL "47 Away".toList)) = true
    ∧ text_match_loop "7".toList ["47 Away".toList] = true :=
  ⟨by decide, by decide,
    C1_amended_substring_suffices "7".toList ["47 Away".toList] "47 Away".toList
      (by decide) (by decide)⟩

/-- Claim C2, counterexample.  The claim states that if fetching or
feature extraction for a single image fails, the orchestrator appends
one error record carrying the image identifier and the failure
message.  In the code only a download exception reaches the per-image
except branch: find_faces_in_uploaded_bytes and
find_text_in_uploaded_bytes catch every exception internally
(processor.py lines 335 to 337 and 387 to 389) and return False, so an
image whose download succeeds but whose inference raises (with a face
criterion and a search string both present) yields no error record and
no match record, only the processed increment: a silent non-match. -/
theorem C2_counterexample :
    (imageStep wT (some [5]) (some "7".toList) (initJob "j") emptyCache
      imgExtractFail).1.errors = []
    ∧ (imageStep wT (some [5]) (some "7".toList) (initJob "j") emptyCache
        imgExtractFail).1.matches = []
    ∧ (imageStep wT (some [5]) (some "7".toList) (initJob "j") emptyCache
        imgExtractFail).1.processed = 1 := by
  exact ⟨by decide, by decide, by decide⟩

/-- Claim C2, amended.  When the download of a single listed image
raises, the per-image step of _run_job appends exactly one error record
carrying the image identifier and the failure message, leaving matches
unchanged.  When the download succeeds but feature extraction fails on
the bytes (both inference passes fail), no error record is appended and
no match record either: the extraction failure is swallowed and the
image is silently counted as a non-match.  In every case the phase is
unchanged (the job is not moved to the error phase), processed is
incremented by exactly one, and the loop still visits every remaining
image (one observable state per listed image, regardless of
failures). -/
theorem C2_amended_isolation {Enc : Type} (w : World Enc) (fe : Option (List Enc))
    (s : Option (List Char)) (j : Job) (st : CacheState Enc)
    (img1 img2 : ImageData Enc) (msg : String) (bytes : ImgBytes Enc)
    (h1 : img1.download = Except.error msg)
    (h2 : img2.download = Except.ok bytes)
    (hbf : bytes.faces = FetchOutcome.loadFail ∨ bytes.faces = FetchOutcome.inferFail)
    (hbo : bytes.ocr = FetchOutcome.loadFail ∨ bytes.ocr = FetchOutcome.inferFail) :
    (imageStep w fe s j st img1).1.errors = j.errors ++ [⟨img1.id, img1.name, msg⟩]
    ∧ (imageStep w fe s j st img1).1.matches = j.matches
    ∧ (imageStep w fe s j st img2).1.errors = j.errors
    ∧ (imageStep w fe s j st img2).1.matches = j.matches
    ∧ (∀ img3 : ImageData Enc, (imageStep w fe s j st img3).1.phase = j.phase
        ∧ (imageStep w fe s j st img3).1.processed = j.processed + 1)
    ∧ (∀ files : List (ImageData Enc),
        (processImagesLoop w fe s j st files).1.length = files.length) := by
  refine ⟨?_, ?_, ?_, ?_,
    fun img3 => ⟨(imageStep_job w fe s j st img3).2.1, (imageStep_job w fe s j st img3).1⟩,
    fun files => processImagesLoop_length w fe s files j st⟩
  · simp [imageStep, h1]
  · simp [imageStep, h1]
  · simp [imageStep, h2]
  · simp [imageStep, h2, imageCheck_fail w fe s st bytes hbf hbo]

theorem C2_amended_witness :
    (imageStep wT (some [5]) (some "7".toList) (initJob "j") emptyCache imgFail).1.errors
      = (initJob "j").errors ++ [⟨"f1", "n1", "boom"⟩]
    ∧ (imageStep wT (some [5]) (some "7".toList) (initJob "j") emptyCache
        imgExtractFail).1.errors = (initJob "j").errors
    ∧ (imageStep wT (some [5]) (some "7".toList) (initJob "j") emptyCache
        imgExtractFail).1.matches = (initJob "j").matches
    ∧ (imageStep wT (some [5]) (some "7".toList) (initJob "j") emptyCache
        imgFail).1.processed = (initJob "j").processed + 1 :=
  have h := C2_amended_isolation wT (some [5]) (some "7".toList) (initJob "j") emptyCache
    imgFail imgExtractFail "boom" ⟨FetchOutcome.inferFail, FetchOutcome.inferFail⟩
    rfl rfl (Or.inr rfl) (Or.inr rfl)
  ⟨h.1, h.2.2.1, h.2.2.2.1, (h.2.2.2.2.1 imgFail).2⟩

/-- Claim C3.  Every observable state of a job run satisfies processed
less or equal total, the length of matches plus the length of errors is
at most processed, and any state in the done phase has processed equal
to total. -/
theorem C3_invariants {Enc : Type} (w : World Enc) (env : RunEnv Enc)
    (st0 : CacheState Enc) (j : Job) (hj : j ∈ (run_job w env st0).1) :
    j.processed ≤ j.total
    ∧ j.matches.length + j.errors.length ≤ j.processed
    ∧ (j.phase = Phase.done → j.processed = j.total) := by
  have h := run_job_mem_good w env st0 j hj
  exact ⟨h.1, h.2.1, h.2.2.1⟩

theorem C3_witness :
    jW3.processed ≤ jW3.total
    ∧ jW3.matches.length + jW3.errors.length ≤ jW3.processed
    ∧ (jW3.phase = Phase.done → jW3.processed = jW3.total) :=
  C3_invariants wT envEmpty emptyCache jW3 (by decide)

/-- Claim C4, counterexample.  The claim states that a reference image
with no detectable face is a submission-time validation error and that
no job is ever created for it.  In the code jobs_start never runs face
detection: with a nonempty face image (100 bytes), no search text, a
Google token and a session, submission succeeds and creates the job in
phase queued; the background run in an environment where
encode_face_from_image yields None (no detectable face) still ends in
phase done with no terminal error. -/
theorem C4_counterexample :
    jobs_start gURL true false (some 100) none true "j" = Except.ok (initJob "j")
    ∧ (run_job wT envNoFace emptyCache).1.getLast?.map Job.phase = some Phase.done
    ∧ (run_job wT envNoFace emptyCache).1.getLast?.map Job.error = some none := by
  exact ⟨by rfl, by decide, by decide⟩

/-- Claim C4, amended.  Submission fails synchronously, and no job is
created, when the criterion is empty (no face bytes and no search
text); but a reference image in which no face is detected is not a
submission-time error: face detection runs inside the background job,
and when encode_face_from_image yields None the job still runs to the
done phase, with the face criterion silently ignored (no match records
when no search text is given either). -/
theorem C4_amended {Enc : Type} (w : World Enc) (env : RunEnv Enc)
    (st0 : CacheState Enc) (files : List (ImageData Enc))
    (hsess : env.sessionExists = true)
    (hprov : detect_provider env.folder_url = "google_drive")
    (htok : env.hasGoogleToken = true)
    (hlist : env.listGoogle = Except.ok files)
    (hface : env.encodeFace = none) :
    (∀ (url : List Char) (hG hM : Bool) (fb : Option Nat) (stext : Option (List Char))
        (sess : Bool) (jid : String), truthyBytes fb = false → truthyText stext = false →
        exceptIsOk (jobs_start url hG hM fb stext sess jid) = false)
    ∧ (run_job w env st0).1.getLast?.map Job.phase = some Phase.done
    ∧ (truthyText env.search_text = false →
        ((run_job w env st0).1.getLast?.getD (initJob env.jobId)).matches = []) := by
  have hrun : run_job w env st0 = runListed w env st0 files := by
    simp [run_job, hsess, hprov, htok, hlist]
  refine ⟨?_, ?_, ?_⟩
  · intro url hG hM fb stext sess jid h1 h2
    have hc : (!truthyBytes fb && !truthyText stext) = true := by rw [h1, h2]; rfl
    unfold jobs_start jobs_start_checks
    split
    · split
      · split
        · rfl
        · simp [hc, exceptIsOk]
      · rfl
    · split
      · split
        · split
          · rfl
          · simp [hc, exceptIsOk]
        · rfl
      · rfl
  · rw [hrun]
    simp only [runListed]
    rw [List.getLast?_concat]
    rfl
  · intro hstext
    rw [hrun]
    simp only [runListed]
    rw [List.getLast?_concat]
    have hfe : (if truthyBytes env.face_bytes then env.encodeFace else none)
        = (none : Option (List Enc)) := by
      rw [hface]
      exact ite_self none
    simp only [Option.getD_some]
    rw [hfe, processImagesLoop_final_matches w env.search_text hstext files _ st0]
    rfl

theorem C4_witness :
    exceptIsOk (jobs_start gURL true false none none true "j") = false
    ∧ (run_job wT envNoFace emptyCache).1.getLast?.map Job.phase = some Phase.done
    ∧ ((run_job wT envNoFace emptyCache).1.getLast?.getD (initJob "j")).matches = [] := by
  have h := C4_amended wT envNoFace emptyCache
    [⟨"f1", "n1", Except.ok ⟨FetchOutcome.ok [9], FetchOutcome.loadFail⟩⟩]
    rfl (by decide) rfl rfl rfl
  exact ⟨h.1 gURL true false none none true "j" rfl rfl, h.2.1, h.2.2 rfl⟩

/-- Claim C5, counterexample.  The claim states that the orchestrator
obtains per-image features through the Feature Cache, performing
inference at most once per image identifier.  In the code _run_job
calls find_faces_in_uploaded_bytes, which never consults or writes the
cache: a job whose listing contains the same image identifier twice
runs face inference twice and leaves the cache empty. -/
theorem C5_counterexample :
    (run_job wT envT emptyCache).2.faceCalls = 2
    ∧ (run_job wT envT emptyCache).2.faces = []
    ∧ (run_job wT envT emptyCache).2.texts = [] := by
  exact ⟨by decide, by decide, by decide⟩

/-- Claim C5, amended.  The background orchestrator does not use the
Feature Cache at all: an entire job run leaves every cache entry
exactly as it was (only the /search path uses the URL-keyed cached
lookups), and inference runs directly on the downloaded bytes of each
listed occurrence. -/
theorem C5_amended {Enc : Type} (w : World Enc) (env : RunEnv Enc) (st0 : CacheState Enc) :
    (run_job w env st0).2.faces = st0.faces
    ∧ (run_job w env st0).2.texts = st0.texts := by
  unfold run_job
  split
  · exact ⟨rfl, rfl⟩
  · split
    · split
      · exact ⟨rfl, rfl⟩
      · split
        · exact ⟨rfl, rfl⟩
        · simp only [runListed]
          exact processImagesLoop_state w _ env.search_text _ _ st0
    · split
      · split
        · exact ⟨rfl, rfl⟩
        · split
          · exact ⟨rfl, rfl⟩
          · simp only [runListed]
            exact processImagesLoop_state w _ env.search_text _ _ st0
      · exact ⟨rfl, rfl⟩

/-- Claim C6, counterexample.  The claim states that a second,
cache-served call of the cached text lookup decides the match exactly
as the first, freshly computed call did.  In the code the cache-hit
path of find_text_in_image applies only the raw lower-cased substring
test, while the fresh path also strips punctuation: searching for #7 in
an image whose readable text is 7 Home matches on the first call (the
stripped form 7 is a substring of 7 home) but does not match on the
second, cache-served call (the raw form #7 is not). -/
theorem C6_counterexample :
    (find_text_in_image w6 emptyCache "u" "#7".toList).1 = true
    ∧ (find_text_in_image w6 (find_text_in_image w6 emptyCache "u" "#7".toList).2
        "u" "#7".toList).1 = false := by
  exact ⟨by decide, by decide⟩

/-- Claim C6, amended.  When the image at a fresh key loads and both
inference passes succeed, each cached lookup performs its underlying
extraction exactly once: the first call extracts and stores, and the
second call is served from the cache with no further extraction.  The
face lookup then returns the identical result on both calls, but the
text lookup is only guaranteed to return the raw lower-cased substring
verdict on the second call, which can differ from the first. -/
theorem C6_amended {Enc : Type} (w : World Enc) (st0 : CacheState Enc) (url : String)
    (targets encs : List Enc) (results : List (List Char × ℚ)) (stext : List Char)
    (hcf : alookup url st0.faces = none)
    (hf : w.faceInference url = FetchOutcome.ok encs)
    (hct : alookup url st0.texts = none)
    (ht : w.ocrInference url = FetchOutcome.ok results) :
    (find_faces_in_image w (find_faces_in_image w st0 url targets).2 url targets).1
      = (find_faces_in_image w st0 url targets).1
    ∧ (find_faces_in_image w st0 url targets).2.faceCalls = st0.faceCalls + 1
    ∧ (find_faces_in_image w (find_faces_in_image w st0 url targets).2 url targets).2.faceCalls
      = st0.faceCalls + 1
    ∧ (find_text_in_image w st0 url stext).2.ocrCalls = st0.ocrCalls + 1
    ∧ (find_text_in_image w (find_text_in_image w st0 url stext).2 url stext).2.ocrCalls
      = st0.ocrCalls + 1
    ∧ (find_text_in_image w (find_text_in_image w st0 url stext).2 url stext).1
      = find_text_cached_match stext (filterConfident results) := by
  refine ⟨?_, ?_, ?_, ?_, ?_, ?_⟩
  · cases encs with
    | nil =>
      simp [find_faces_in_image, hcf, find_faces_fresh, hf, alookup, facesMatch_nil]
    | cons e es =>
      simp [find_faces_in_image, hcf, find_faces_fresh, hf, alookup]
  · cases encs with
    | nil => simp [find_faces_in_image, hcf, find_faces_fresh, hf]
    | cons e es => simp [find_faces_in_image, hcf, find_faces_fresh, hf]
  · cases encs with
    | nil => simp [find_faces_in_image, hcf, find_faces_fresh, hf, alookup]
    | cons e es => simp [find_faces_in_image, hcf, find_faces_fresh, hf, alookup]
  · simp [find_text_in_image, hct, find_text_fresh, ht]
  · simp [find_text_in_image, hct, find_text_fresh, ht, alookup]
  · simp [find_text_in_image, hct, find_text_fresh, ht, alookup]

theorem C6_witness :
    (find_faces_in_image wC6 (find_faces_in_image wC6 emptyCache "u" [3]).2 "u" [3]).1
      = (find_faces_in_image wC6 emptyCache "u" [3]).1
    ∧ (find_faces_in_image wC6 emptyCache "u" [3]).2.faceCalls
      = (emptyCache : CacheState Nat).faceCalls + 1
    ∧ (find_faces_in_image wC6 (find_faces_in_image wC6 emptyCache "u" [3]).2
        "u" [3]).2.faceCalls = (emptyCache : CacheState Nat).faceCalls + 1
    ∧ (find_text_in_image wC6 emptyCache "u" "#7".toList).2.ocrCalls
      = (emptyCache : CacheState Nat).ocrCalls + 1
    ∧ (find_text_in_image wC6 (find_text_in_image wC6 emptyCache "u" "#7".toList).2
        "u" "#7".toList).2.ocrCalls = (emptyCache : CacheState Nat).ocrCalls + 1
    ∧ (find_text_in_image wC6 (find_text_in_image wC6 emptyCache "u" "#7".toList).2
        "u" "#7".toList).1
      = find_text_cached_match "#7".toList (filterConfident [("7 Home".toList, 1)]) :=
  C6_amended wC6 emptyCache "u" [3] [3] [("7 Home".toList, 1)] "#7".toList
    rfl rfl rfl rfl

/-- Claim C7.  When the listing adapter fails (for example a missing
credential or an unrecognized provider), the job goes straight from
listing to the error phase with the adapter message recorded as the
terminal error and stops: the trace is exactly queued, listing, error,
the cache is untouched, and every error-phase state of any run has
processed zero, no matches, no errors and a recorded terminal
message. -/
theorem C7_listing_failure {Enc : Type} (w : World Enc) (env : RunEnv Enc)
    (st0 : CacheState Enc) (msg : String)
    (hsess : env.sessionExists = true)
    (hprov : detect_provider env.folder_url = "google_drive")
    (htok : env.hasGoogleToken = true)
    (hlist : env.listGoogle = Except.error msg) :
    (run_job w env st0).1 = [initJob env.jobId, listingJob env.jobId,
      { listingJob env.jobId with phase := Phase.error, error := some msg }]
    ∧ (run_job w env st0).2 = st0
    ∧ (∀ (env2 : RunEnv Enc) (j : Job), j ∈ (run_job w env2 st0).1 →
        j.phase = Phase.error →
        j.processed = 0 ∧ j.matches = [] ∧ j.errors = [] ∧ j.total = 0
          ∧ j.error.isSome = true) := by
  refine ⟨?_, ?_, ?_⟩
  · simp [run_job, hsess, hprov, htok, hlist, fatalTrace]
  · simp [run_job, hsess, hprov, htok, hlist]
  · intro env2 j hj hph
    exact (run_job_mem_good w env2 st0 j hj).2.2.2 hph

theorem C7_witness :
    (run_job wT envFail emptyCache).1 = [initJob "j", listingJob "j",
      { listingJob "j" with phase := Phase.error, error := some "Drive API error: boom" }]
    ∧ (run_job wT envFail emptyCache).2 = emptyCache :=
  ⟨(C7_listing_failure wT envFail emptyCache "Drive API error: boom"
      rfl (by decide) rfl rfl).1,
    (C7_listing_failure wT envFail emptyCache "Drive API error: boom"
      rfl (by decide) rfl rfl).2.1⟩

/-- Claim C8.  Every trace of observable job states starts in phase
queued, and every adjacent pair of states either keeps its phase or
follows a transition of the machine queued to listing to processing to
done, with error reachable only from listing or processing; no state
whose phase is terminal (done or error) is ever followed by another
state.  Phases outside these five do not exist by construction of the
Phase type. -/
theorem C8_state_machine {Enc : Type} (w : World Enc) (env : RunEnv Enc)
    (st0 : CacheState Enc) :
    chainOkB ((run_job w env st0).1) = true
    ∧ (run_job w env st0).1.head?.map Job.phase = some Phase.queued := by
  constructor
  · unfold run_job
    split
    · exact fatalTrace_chain _ _
    · split
      · split
        · exact fatalTrace_chain _ _
        · split
          · exact fatalTrace_chain _ _
          · exact runListed_chain w env st0 _
      · split
        · split
          · exact fatalTrace_chain _ _
          · split
            · exact fatalTrace_chain _ _
            · exact runListed_chain w env st0 _
        · exact fatalTrace_chain _ _
  · unfold run_job
    split
    · rfl
    · split
      · split
        · rfl
        · split
          · rfl
          · rfl
      · split
        · split
          · rfl
          · split
            · rfl
            · rfl
        · rfl

/-- Claim C9, counterexample.  The claim states that when several jobs
request features for the same image, the extraction capability runs at
most once for that image across all of them.  The background jobs path
has no cross-job sharing at all: running the same one-image job twice
in sequence (a legal schedule of two concurrent jobs, since each
per-image check is a single non-suspending block) invokes face
inference twice and leaves the shared cache empty. -/
theorem C9_counterexample :
    (run_job wT envOne (run_job wT envOne emptyCache).2).2.faceCalls = 2
    ∧ (run_job wT envOne (run_job wT envOne emptyCache).2).2.faces = [] := by
  exact ⟨by decide, by decide⟩

/-- Claim C9, amended.  There is no single-flight mechanism: each job
run invokes face inference once per listed occurrence of an image,
regardless of what any other job already computed, so two jobs over the
same single image perform two extractions in total. -/
theorem C9_amended {Enc : Type} (w : World Enc) (env : RunEnv Enc)
    (st0 : CacheState Enc) (img : ImageData Enc) (bytes : ImgBytes Enc) (encs : List Enc)
    (hsess : env.sessionExists = true)
    (hprov : detect_provider env.folder_url = "google_drive")
    (htok : env.hasGoogleToken = true)
    (hlist : env.listGoogle = Except.ok [img])
    (hdl : img.download = Except.ok bytes)
    (hfaces : bytes.faces = FetchOutcome.ok encs)
    (hfb : truthyBytes env.face_bytes = true)
    (hfe : truthyEncs env.encodeFace = true) :
    (run_job w env (run_job w env st0).2).2.faceCalls = st0.faceCalls + 2 := by
  have key : ∀ st : CacheState Enc, (run_job w env st).2.faceCalls = st.faceCalls + 1 := by
    intro st
    have hrun : run_job w env st = runListed w env st [img] := by
      simp [run_job, hsess, hprov, htok, hlist]
    rw [hrun]
    simp only [runListed, processImagesLoop]
    simp only [imageStep, hdl]
    have hfe2 : (if truthyBytes env.face_bytes then env.encodeFace else none)
        = env.encodeFace := by rw [hfb]; rfl
    simp only [imageCheck, hfe2, hfe, if_true]
    have hff : (find_faces_in_uploaded_bytes w st bytes
        (env.encodeFace.getD [])).2.faceCalls = st.faceCalls + 1 := by
      simp [find_faces_in_uploaded_bytes, hfaces]
    split
    · rw [(find_text_in_uploaded_bytes_state _ _ _).2.2, hff]
    · exact hff
  rw [key, key]

theorem C9_witness :
    (run_job wT envOne (run_job wT envOne emptyCache).2).2.faceCalls
      = (emptyCache : CacheState Nat).faceCalls + 2 :=
  C9_amended wT envOne emptyCache imgT ⟨FetchOutcome.ok [5], FetchOutcome.loadFail⟩ [5]
    rfl (by decide) rfl rfl rfl rfl rfl rfl

/-- Claim C10, counterexample.  The claim states that the cached
per-image checks return False on a corrupt cache entry.  In the code an
unreadable cache entry falls through to recomputation: with a corrupt
face entry for a URL whose image contains a face matching the target,
find_faces_in_image returns True. -/
theorem C10_counterexample :
    (find_faces_in_image w10 st10 "u" [7]).1 = true := by decide

/-- Claim C10, amended.  The cached per-image checks of the /search
path are total functions of the modelled outcomes (every exception in
the source is caught): on a download failure or an inference failure
with no cached entry they return False, and such a failing image URL is
silently absent from the /search match list, with no error record (the
loop produces none by construction).  A corrupt cache entry, however,
is recovered by transparent recomputation, whose result is returned. -/
theorem C10_amended {Enc : Type} (w : World Enc) (st : CacheState Enc) (url : String)
    (targets : List Enc) (stext : List Char) (fe : Option (List Enc))
    (sOpt : Option (List Char)) (urls : List String)
    (hf : w.faceInference url = FetchOutcome.loadFail
      ∨ w.faceInference url = FetchOutcome.inferFail)
    (ht : w.ocrInference url = FetchOutcome.loadFail
      ∨ w.ocrInference url = FetchOutcome.inferFail)
    (hcf : alookup url st.faces = none)
    (hct : alookup url st.texts = none) :
    (find_faces_in_image w st url targets).1 = false
    ∧ (find_text_in_image w st url stext).1 = false
    ∧ url ∉ (search_photos_loop w fe sOpt st urls).1 := by
  exact ⟨(find_faces_fail w st url targets hcf hf).1,
    (find_text_fail w st url stext hct ht).1,
    search_loop_skip w fe sOpt url hf ht urls st hcf hct⟩

theorem C10_witness :
    (find_faces_in_image wT emptyCache "u" [1]).1 = false
    ∧ (find_text_in_image wT emptyCache "u" "7".toList).1 = false
    ∧ "u" ∉ (search_photos_loop wT (some [1]) (some "7".toList) emptyCache ["u"]).1 :=
  C10_amended wT emptyCache "u" [1] "7".toList (some [1]) (some "7".toList) ["u"]
    (Or.inl rfl) (Or.inl rfl) rfl rfl

end GlinkIR
